import Mathlib

/-!
# Verification of the poison-ladder ranking engine

Shallow embedding of the core ranking logic of the repository:

* `determineMatchWinner` — outcome resolver, from `src/unnamed/part_009`
  (the event-sourced snapshot of `lib/utils/ladder.ts`);
* `ladderDetermineMatchWinner` — the older copy in `src/lib/utils/ladder.ts`
  (identical except that it has no retirement branch);
* `applyPoisonLadderLogic` / `updateLadderRankings` — the two poison-ladder
  transition implementations (`src/lib/utils/events.ts`, `src/lib/utils/ladder.ts`);
* `rebuildAllRankings` — the full replay engine (`src/lib/utils/events.ts`);
* `getActiveLeaderboard` — the active view (`src/lib/utils/ladder.ts`);
* `handleManualAdjustment` — the manual adjustment entry point
  (`RankingManager` component, `src/unnamed/part_004`).

JavaScript-specific behaviour is modelled explicitly: array mutation through
aliased records is modelled by returning the post-call state of the caller's
array, `Array.prototype.splice` index clamping is modelled by `insertAtClamped`,
and thrown errors become `Except.error`.
-/

/-- The `1 | 2` side type used throughout the source (`set1_winner : 1 | 2` etc.). -/
inductive Side where
  | one
  | two
deriving DecidableEq, Repr

/-- The opposite side; `retired_player === 1 ? 2 : 1` in the source. -/
def Side.other : Side → Side
  | Side.one => Side.two
  | Side.two => Side.one

/-- The `Player` row (`src/lib/types/database.ts`, newer interface with
`is_active` and optional `display_rank`).  Field defaults only shorten concrete
test fixtures; they model nothing. -/
structure Player where
  id : String := ""
  name : String := ""
  email : String := ""
  initial_rank : Int := 0
  current_rank : Int := 0
  notes : String := ""
  is_active : Bool := true
  created_at : String := ""
  display_rank : Option Int := none
deriving DecidableEq, Repr

/-- The `Match` row (`src/lib/types/database.ts`), together with the
`has_retirement` / `retired_player` columns used by the newer resolver and the
match-entry forms (`src/unnamed/part_000`, `src/unnamed/part_009`).
`determineMatchWinner` takes `Omit<Match, 'match_winner'>`; it never reads
`match_winner`. -/
structure Match where
  id : String := ""
  player1_id : String := ""
  player2_id : String := ""
  date_played : String := ""
  set1_winner : Side := Side.one
  set1_p1_games : Int := 0
  set1_p2_games : Int := 0
  set2_winner : Side := Side.one
  set2_p1_games : Int := 0
  set2_p2_games : Int := 0
  tiebreaker_winner : Option Side := none
  tiebreaker_p1_points : Option Int := none
  tiebreaker_p2_points : Option Int := none
  has_retirement : Bool := false
  retired_player : Option Side := none
  match_winner : Side := Side.one
  created_at : String := ""
deriving DecidableEq, Repr

/-- `determineMatchWinner` from `src/unnamed/part_009`: if there was a
retirement the non-retiring player wins; otherwise count the explicit
`set1_winner` / `set2_winner` flags; on a 1–1 split use the tiebreaker, and
with no tiebreaker compare total games (`player1Games > player2Games ? 1 : 2`).
The JS truthiness test `match.has_retirement && match.retired_player` is
`has_retirement = true` and `retired_player` non-null. -/
def determineMatchWinner (m : Match) : Side :=
  if m.has_retirement = true ∧ m.retired_player.isSome then
    (if m.retired_player = some Side.one then Side.two else Side.one)
  else
    let player1Sets : Nat :=
      (if m.set1_winner = Side.one then 1 else 0) + (if m.set2_winner = Side.one then 1 else 0)
    let player2Sets : Nat :=
      (if m.set1_winner = Side.one then 0 else 1) + (if m.set2_winner = Side.one then 0 else 1)
    if player1Sets = player2Sets then
      match m.tiebreaker_winner with
      | some s => s
      | none =>
        if m.set1_p2_games + m.set2_p2_games < m.set1_p1_games + m.set2_p1_games then Side.one
        else Side.two
    else if player2Sets < player1Sets then Side.one else Side.two

/-- `determineMatchWinner` from `src/lib/utils/ladder.ts` (lines 151–174): the
older copy, identical to the part_009 version except that it has no retirement
branch. -/
def ladderDetermineMatchWinner (m : Match) : Side :=
  let player1Sets : Nat :=
    (if m.set1_winner = Side.one then 1 else 0) + (if m.set2_winner = Side.one then 1 else 0)
  let player2Sets : Nat :=
    (if m.set1_winner = Side.one then 0 else 1) + (if m.set2_winner = Side.one then 0 else 1)
  if player1Sets = player2Sets then
    match m.tiebreaker_winner with
    | some s => s
    | none =>
      if m.set1_p2_games + m.set2_p2_games < m.set1_p1_games + m.set2_p1_games then Side.one
      else Side.two
  else if player2Sets < player1Sets then Side.one else Side.two

/-- The two resolver copies agree on every retirement-free input. -/
theorem determineMatchWinner_eq_ladder (m : Match) (hret : m.has_retirement = false) :
    determineMatchWinner m = ladderDetermineMatchWinner m := by
  unfold determineMatchWinner ladderDetermineMatchWinner
  simp [hret]

/-- C4 amended: the retirement override holds for the event-sourced resolver
copy (`src/unnamed/part_009`) only — with a retirement side set, that copy
returns the other side whatever the scores say.  The older copy in
`src/lib/utils/ladder.ts` has no retirement branch and does not satisfy the
override (see the counterexample below). -/
theorem retirement_overrides_scores (m : Match) (s : Side)
    (hret : m.has_retirement = true) (hside : m.retired_player = some s) :
    determineMatchWinner m = s.other := by
  unfold determineMatchWinner
  cases s <;> simp [hret, hside, Side.other]

/-- Side 1 leading 6-0, 3-1 but retired: the spec's concrete retirement
example, with the set-winner flags as the forms derive them (strictly more
games: 6>0 and 3>1, both side 1). -/
def retirementMatch : Match :=
  { set1_winner := Side.one, set1_p1_games := 6, set1_p2_games := 0,
    set2_winner := Side.one, set2_p1_games := 3, set2_p2_games := 1,
    has_retirement := true, retired_player := some Side.one }

/-- C4 counterexample: the claim quantifies over both resolver copies, but the
`src/lib/utils/ladder.ts` copy (lines 151–174, the one the match entry and
edit forms import) never reads the retirement fields.  On the claim's own
example — side 1 retired while leading 6-0, 3-1 — it returns side 1, the
retiring side, instead of side 2. -/
theorem ladder_resolver_ignores_retirement :
    ladderDetermineMatchWinner retirementMatch = Side.one ∧
    retirementMatch.has_retirement = true ∧
    retirementMatch.retired_player = some Side.one := by
  decide

/-- C4 amended witness: on the part_009 copy, side 1 leading 6-0, 3-1 with
side 1 retired resolves to side 2. -/
theorem retirement_overrides_scores_witness :
    determineMatchWinner retirementMatch = Side.two :=
  retirement_overrides_scores retirementMatch Side.one rfl rfl

/-- An input whose set-winner flags contradict its game counts: side 2 has
strictly more games in each set, but both flags say side 1. -/
def inconsistentFlagsMatch : Match :=
  { set1_winner := Side.one, set2_winner := Side.one,
    set1_p1_games := 0, set1_p2_games := 6,
    set2_p1_games := 0, set2_p2_games := 6 }

/-- C5 counterexample: the resolver does not derive set winners from game
counts.  On a retirement-free input where side 2 has strictly more games in
each set but both `set1_winner` / `set2_winner` flags say side 1, both resolver
copies return side 1, not the side with more games. -/
theorem setFlags_not_derived_from_games :
    determineMatchWinner inconsistentFlagsMatch = Side.one ∧
    ladderDetermineMatchWinner inconsistentFlagsMatch = Side.one ∧
    inconsistentFlagsMatch.has_retirement = false ∧
    inconsistentFlagsMatch.tiebreaker_winner = none ∧
    inconsistentFlagsMatch.set1_p1_games < inconsistentFlagsMatch.set1_p2_games ∧
    inconsistentFlagsMatch.set2_p1_games < inconsistentFlagsMatch.set2_p2_games := by
  decide

/-- C5 amended: the resolver reads the explicit `set1_winner`/`set2_winner`
input fields.  When those fields agree with the game counts (the side with
strictly more games, which is how every caller in the repository constructs
them) and no retirement is set, the outcome is a function of the per-set game
counts and the tiebreaker alone. -/
theorem resolver_games_when_flags_consistent (m : Match)
    (hret : m.has_retirement = false)
    (h1 : m.set1_winner = (if m.set1_p2_games < m.set1_p1_games then Side.one else Side.two))
    (h2 : m.set2_winner = (if m.set2_p2_games < m.set2_p1_games then Side.one else Side.two))
    (hne1 : m.set1_p1_games ≠ m.set1_p2_games)
    (hne2 : m.set2_p1_games ≠ m.set2_p2_games) :
    determineMatchWinner m =
      (if m.set1_p2_games < m.set1_p1_games ∧ m.set2_p2_games < m.set2_p1_games then Side.one
       else if m.set1_p1_games < m.set1_p2_games ∧ m.set2_p1_games < m.set2_p2_games then Side.two
       else
         match m.tiebreaker_winner with
         | some s => s
         | none =>
           if m.set1_p2_games + m.set2_p2_games < m.set1_p1_games + m.set2_p1_games then Side.one
           else Side.two) ∧
    ladderDetermineMatchWinner m =
      (if m.set1_p2_games < m.set1_p1_games ∧ m.set2_p2_games < m.set2_p1_games then Side.one
       else if m.set1_p1_games < m.set1_p2_games ∧ m.set2_p1_games < m.set2_p2_games then Side.two
       else
         match m.tiebreaker_winner with
         | some s => s
         | none =>
           if m.set1_p2_games + m.set2_p2_games < m.set1_p1_games + m.set2_p1_games then Side.one
           else Side.two) := by
  rw [determineMatchWinner_eq_ladder m hret, and_self]
  unfold ladderDetermineMatchWinner
  rcases lt_or_gt_of_ne hne1 with hlt1 | hgt1 <;> rcases lt_or_gt_of_ne hne2 with hlt2 | hgt2
  · simp [h1, h2, not_lt_of_gt hlt1, not_lt_of_gt hlt2, hlt1, hlt2]
  · simp [h1, h2, not_lt_of_gt hlt1, hgt2, hlt1, not_lt_of_gt hgt2]
  · simp [h1, h2, hgt1, not_lt_of_gt hlt2, hlt2, not_lt_of_gt hgt1]
  · simp [h1, h2, hgt1, hgt2]

/-- Fixture satisfying the C5 amended hypotheses: flags consistent with games,
sets split 1-1, tiebreaker to side 2. -/
def consistentFlagsMatch : Match :=
  { set1_winner := Side.one, set1_p1_games := 6, set1_p2_games := 4,
    set2_winner := Side.two, set2_p1_games := 3, set2_p2_games := 6,
    tiebreaker_winner := some Side.two }

/-- C5 witness: the amended theorem applied to a concrete consistent input. -/
theorem resolver_games_when_flags_consistent_witness :
    determineMatchWinner consistentFlagsMatch = Side.two ∧
    ladderDetermineMatchWinner consistentFlagsMatch = Side.two := by
  have h := resolver_games_when_flags_consistent consistentFlagsMatch rfl
    (by decide) (by decide) (by decide) (by decide)
  exact ⟨by rw [h.1]; decide, by rw [h.2]; decide⟩

/-- Sets split 1-1, no tiebreaker, equal total games (6-4 then 1-3: 7 each). -/
def equalTotalsMatch : Match :=
  { set1_winner := Side.one, set1_p1_games := 6, set1_p2_games := 4,
    set2_winner := Side.two, set2_p1_games := 1, set2_p2_games := 3 }

/-- C6 counterexample: with sets split 1-1, no tiebreaker and equal total
games, both resolver copies return side 2 — neither fails; no `InvalidInput`
error path exists in either function (their return type is `1 | 2`). -/
theorem equal_totals_returns_side_two_counterexample :
    determineMatchWinner equalTotalsMatch = Side.two ∧
    ladderDetermineMatchWinner equalTotalsMatch = Side.two ∧
    equalTotalsMatch.has_retirement = false ∧
    equalTotalsMatch.set1_winner ≠ equalTotalsMatch.set2_winner ∧
    equalTotalsMatch.tiebreaker_winner = none ∧
    equalTotalsMatch.set1_p1_games + equalTotalsMatch.set2_p1_games =
      equalTotalsMatch.set1_p2_games + equalTotalsMatch.set2_p2_games := by
  decide

/-- C6 amended: on every retirement-free input with sets split 1-1, no
tiebreaker and equal total games, the resolver returns side 2 (the strict
`>` fallback awards ties to side 2); it never raises an error. -/
theorem equal_totals_returns_side_two (m : Match)
    (hret : m.has_retirement = false)
    (hsplit : m.set1_winner ≠ m.set2_winner)
    (htb : m.tiebreaker_winner = none)
    (heq : m.set1_p1_games + m.set2_p1_games = m.set1_p2_games + m.set2_p2_games) :
    determineMatchWinner m = Side.two ∧ ladderDetermineMatchWinner m = Side.two := by
  rw [determineMatchWinner_eq_ladder m hret, and_self]
  unfold ladderDetermineMatchWinner
  cases hs1 : m.set1_winner <;> cases hs2 : m.set2_winner <;>
    simp_all [htb, le_of_eq heq.symm, not_lt_of_ge (le_of_eq heq.symm)]

/-- C6 amended witness: the amended theorem at the concrete split/equal input. -/
theorem equal_totals_returns_side_two_witness :
    determineMatchWinner equalTotalsMatch = Side.two ∧
    ladderDetermineMatchWinner equalTotalsMatch = Side.two :=
  equal_totals_returns_side_two equalTotalsMatch rfl (by decide) rfl (by decide)

/-! ## List utilities shared by the transition and replay embeddings -/

/-- `Array.prototype.findIndex` with the `-1` sentinel mapped to `none`. -/
def findIndex? {α : Type _} (p : α → Bool) : List α → Option Nat
  | [] => none
  | a :: l => if p a then some 0 else (findIndex? p l).map (fun i => i + 1)

/-- `splice(i, 1)`: drop the element at index `i`. -/
def removeAt {α : Type _} (l : List α) (i : Nat) : List α :=
  l.take i ++ l.drop (i + 1)

/-- The actual insertion index of `Array.prototype.splice(pos, 0, x)`:
negative positions count from the end (clamped at `0`), positions past the end
are clamped to the length. -/
def spliceIdx (len : Nat) (pos : Int) : Nat :=
  if pos < 0 then (Int.ofNat len + pos).toNat else min pos.toNat len

/-- `splice(pos, 0, x)` with JS index clamping. -/
def insertAtClamped {α : Type _} (l : List α) (pos : Int) (x : α) : List α :=
  l.take (spliceIdx l.length pos) ++ x :: l.drop (spliceIdx l.length pos)

/-- Remove the element at index `i` and re-insert it at (clamped) position
`pos` — the `splice` pair used by the replay engine. -/
def spliceMove {α : Type _} (l : List α) (i : Nat) (pos : Int) : List α :=
  match l[i]? with
  | some x => insertAtClamped (removeAt l i) pos x
  | none => l

/-- The comparator `(a, b) => a.current_rank - b.current_rank` as a relation. -/
def rankLE (a b : Player) : Prop := a.current_rank ≤ b.current_rank

instance : DecidableRel rankLE :=
  fun a b => inferInstanceAs (Decidable (a.current_rank ≤ b.current_rank))

instance : IsTotal Player rankLE := ⟨fun a b => le_total a.current_rank b.current_rank⟩

instance : IsTrans Player rankLE := ⟨fun _ _ _ h₁ h₂ => le_trans h₁ h₂⟩

/-- `.sort((a, b) => a.current_rank - b.current_rank)`: a stable ascending sort
by `current_rank` (insertion sort is stable, like `Array.prototype.sort`). -/
def sortByRank (l : List Player) : List Player := List.insertionSort rankLE l

/-! ## The poison-ladder transition (`events.ts` and `ladder.ts` copies)

Both copies perform, when the winner is ranked strictly worse than the loser,
the same record mutations: `winner.current_rank = loserRank` on the one record
the `find` call located, then a `forEach` bumping every record with a
different id whose rank lies in `[loserRank, winnerOldRank)`.  They differ
only in which records they mutate: `applyPoisonLadderLogic` first copies every
record (`players.map(p => ({ ...p }))`), `updateLadderRankings` copies only
the array (`[...players]`) and so writes through to the caller's records.
Each embedding therefore returns the pair
`(returned array, caller's array after the call)`. -/

/-- `winner.current_rank = loserRank`: mutate the first record carrying the
winner's id (the record `find` returned). -/
def setFirstRank : List Player → String → Int → List Player
  | [], _, _ => []
  | p :: l, wid, r =>
    if p.id = wid then { p with current_rank := r } :: l
    else p :: setFirstRank l wid r

/-- The full mutation block guarded by `winner.current_rank > loser.current_rank`:
move the winner to the loser's rank, then bump every other record whose rank
was in `[loserRank, winnerOldRank)` by one. -/
def bumpWindow (l : List Player) (wid : String) (winnerOldRank loserRank : Int) :
    List Player :=
  (setFirstRank l wid loserRank).map fun p =>
    if p.id ≠ wid ∧ loserRank ≤ p.current_rank ∧ p.current_rank < winnerOldRank then
      { p with current_rank := p.current_rank + 1 }
    else p

/-- `applyPoisonLadderLogic` (`src/lib/utils/events.ts`, lines 168–212).  The
record copies make the mutations invisible to the caller, so the caller's
array after the call is `players` itself; the result is the bumped copy list
sorted by rank.  The re-lookup of `winnerCopy` / `loserCopy` mirrors the
source's second pair of `find` calls (with values instead of aliases the
copies are the found records themselves); its failure arm is provably dead. -/
def applyPoisonLadderLogic (players : List Player) (m : Match) :
    Except String (List Player × List Player) :=
  match players.find? (fun p => p.id = m.player1_id),
        players.find? (fun p => p.id = m.player2_id) with
  | some player1, some player2 =>
    let winner := if m.match_winner = Side.one then player1 else player2
    let loser := if m.match_winner = Side.one then player2 else player1
    match players.find? (fun p => p.id = winner.id),
          players.find? (fun p => p.id = loser.id) with
    | some winnerCopy, some loserCopy =>
      let final :=
        if loserCopy.current_rank < winnerCopy.current_rank then
          bumpWindow players winner.id winnerCopy.current_rank loserCopy.current_rank
        else players
      Except.ok (sortByRank final, players)
    | _, _ => Except.error "unreachable: re-lookup of a found player"
  | _, _ => Except.error "Players not found"

/-- `updateLadderRankings` (`src/lib/utils/ladder.ts`, lines 108–149).  Only
the array is copied, so the mutations land in the caller's records: the
caller's array after the call keeps its order but carries the bumped ranks. -/
def updateLadderRankings (players : List Player) (m : Match) :
    Except String (List Player × List Player) :=
  match players.find? (fun p => p.id = m.player1_id),
        players.find? (fun p => p.id = m.player2_id) with
  | some player1, some player2 =>
    let winner := if m.match_winner = Side.one then player1 else player2
    let loser := if m.match_winner = Side.one then player2 else player1
    let mutated :=
      if loser.current_rank < winner.current_rank then
        bumpWindow players winner.id winner.current_rank loser.current_rank
      else players
    Except.ok (sortByRank mutated, mutated)
  | _, _ => Except.error "Players not found"

/-- Id of the match's winning player (`match_winner === 1 ? player1_id : player2_id`). -/
def matchWinnerId (m : Match) : String :=
  if m.match_winner = Side.one then m.player1_id else m.player2_id

/-- Id of the match's losing player. -/
def matchLoserId (m : Match) : String :=
  if m.match_winner = Side.one then m.player2_id else m.player1_id

/-! ### Basic lemmas about the transition pieces -/

theorem find?_refind {players : List Player} {x : String} {w : Player}
    (h : players.find? (fun p => p.id = x) = some w) :
    players.find? (fun p => p.id = w.id) = some w := by
  have hx : w.id = x := by simpa using List.find?_some h
  simpa [hx] using h

/-- The per-record shift both implementations apply (under distinct ids). -/
def ladderShift (wid : String) (winnerOldRank loserRank : Int) (p : Player) : Player :=
  if p.id = wid then { p with current_rank := loserRank }
  else if loserRank ≤ p.current_rank ∧ p.current_rank < winnerOldRank then
    { p with current_rank := p.current_rank + 1 }
  else p

theorem ladderShift_id (wid : String) (wOld lRank : Int) (p : Player) :
    (ladderShift wid wOld lRank p).id = p.id := by
  unfold ladderShift
  split
  · rfl
  · split <;> rfl

theorem setFirstRank_eq_map {l : List Player} {wid : String} {r : Int}
    (hnd : (l.map Player.id).Nodup) :
    setFirstRank l wid r =
      l.map fun p => if p.id = wid then { p with current_rank := r } else p := by
  induction l with
  | nil => rfl
  | cons p l ih =>
    simp only [List.map_cons, List.nodup_cons] at hnd
    by_cases hp : p.id = wid
    · have : ∀ q ∈ l, (if q.id = wid then { q with current_rank := r } else q) = q := by
        intro q hq
        have : q.id ≠ wid := by
          intro hq'
          exact hnd.1 (by rw [hp, ← hq']; exact List.mem_map_of_mem Player.id hq)
        simp [this]
      simp [setFirstRank, hp, List.map_congr_left this]
    · simp [setFirstRank, hp, ih hnd.2]

theorem bumpWindow_eq_map {l : List Player} {wid : String} {wOld lRank : Int}
    (hnd : (l.map Player.id).Nodup) :
    bumpWindow l wid wOld lRank = l.map (ladderShift wid wOld lRank) := by
  unfold bumpWindow
  rw [setFirstRank_eq_map hnd, List.map_map]
  refine List.map_congr_left fun p _ => ?_
  by_cases hp : p.id = wid <;> simp [ladderShift, hp]

/-- On success, `applyPoisonLadderLogic` returns, as its first component, the
bumped (or untouched) roster sorted by rank, and as the caller-visible input
array, `players` unchanged. -/
theorem applyPoisonLadderLogic_eq {players : List Player} {m : Match} {w l : Player}
    (hw : players.find? (fun p => p.id = matchWinnerId m) = some w)
    (hl : players.find? (fun p => p.id = matchLoserId m) = some l) :
    applyPoisonLadderLogic players m =
      Except.ok
        (sortByRank
          (if l.current_rank < w.current_rank then
            bumpWindow players w.id w.current_rank l.current_rank
          else players), players) := by
  cases hmw : m.match_winner
  · have hw' : players.find? (fun p => p.id = m.player1_id) = some w := by
      simpa [matchWinnerId, hmw] using hw
    have hl' : players.find? (fun p => p.id = m.player2_id) = some l := by
      simpa [matchLoserId, hmw] using hl
    unfold applyPoisonLadderLogic
    rw [hw', hl']
    simp only [hmw, ite_true, if_true]
    rw [find?_refind hw', find?_refind hl']
  · have hw' : players.find? (fun p => p.id = m.player2_id) = some w := by
      simpa [matchWinnerId, hmw] using hw
    have hl' : players.find? (fun p => p.id = m.player1_id) = some l := by
      simpa [matchLoserId, hmw] using hl
    unfold applyPoisonLadderLogic
    rw [hw', hl']
    simp only [hmw, reduceCtorEq, if_false, ite_false]
    rw [find?_refind hw', find?_refind hl']

/-- Same computation for `updateLadderRankings`: identical returned roster,
but the caller's array after the call carries the mutated records. -/
theorem updateLadderRankings_eq {players : List Player} {m : Match} {w l : Player}
    (hw : players.find? (fun p => p.id = matchWinnerId m) = some w)
    (hl : players.find? (fun p => p.id = matchLoserId m) = some l) :
    updateLadderRankings players m =
      Except.ok
        (sortByRank
          (if l.current_rank < w.current_rank then
            bumpWindow players w.id w.current_rank l.current_rank
          else players),
        (if l.current_rank < w.current_rank then
            bumpWindow players w.id w.current_rank l.current_rank
          else players)) := by
  cases hmw : m.match_winner
  · have hw' : players.find? (fun p => p.id = m.player1_id) = some w := by
      simpa [matchWinnerId, hmw] using hw
    have hl' : players.find? (fun p => p.id = m.player2_id) = some l := by
      simpa [matchLoserId, hmw] using hl
    unfold updateLadderRankings
    rw [hw', hl']
    simp only [hmw, ite_true, if_true]
  · have hw' : players.find? (fun p => p.id = m.player2_id) = some w := by
      simpa [matchWinnerId, hmw] using hw
    have hl' : players.find? (fun p => p.id = m.player1_id) = some l := by
      simpa [matchLoserId, hmw] using hl
    unfold updateLadderRankings
    rw [hw', hl']
    simp only [hmw, reduceCtorEq, if_false, ite_false]

theorem setFirstRank_map_id (l : List Player) (wid : String) (r : Int) :
    (setFirstRank l wid r).map Player.id = l.map Player.id := by
  induction l with
  | nil => rfl
  | cons p l ih =>
    unfold setFirstRank
    by_cases hp : p.id = wid <;> simp [hp, ih]

/-- The mutation block changes only ranks: the caller's array keeps its ids in
their original order. -/
theorem bumpWindow_map_id (l : List Player) (wid : String) (wOld lRank : Int) :
    (bumpWindow l wid wOld lRank).map Player.id = l.map Player.id := by
  unfold bumpWindow
  rw [List.map_map, ← setFirstRank_map_id l wid lRank]
  refine List.map_congr_left fun p _ => ?_
  simp only [Function.comp_apply]
  split <;> rfl

theorem mem_sortByRank_bumpWindow {players : List Player} {wid : String}
    {wOld lRank : Int} {q : Player}
    (hnd : (players.map Player.id).Nodup)
    (hq : q ∈ sortByRank (bumpWindow players wid wOld lRank)) :
    ∃ p ∈ players, q = ladderShift wid wOld lRank p := by
  rw [sortByRank, List.mem_insertionSort, bumpWindow_eq_map hnd] at hq
  obtain ⟨p, hp, hpq⟩ := List.mem_map.mp hq
  exact ⟨p, hp, hpq.symm⟩

/-- Winner and loser are distinct records with distinct ids when their ranks
differ. -/
theorem winner_loser_id_ne {players : List Player} {m : Match} {w l : Player}
    (hw : players.find? (fun p => p.id = matchWinnerId m) = some w)
    (hl : players.find? (fun p => p.id = matchLoserId m) = some l)
    (hrank : l.current_rank < w.current_rank) : l.id ≠ w.id := by
  intro he
  have hwid : w.id = matchWinnerId m := by simpa using List.find?_some hw
  have hlid : l.id = matchLoserId m := by simpa using List.find?_some hl
  have hsame : matchLoserId m = matchWinnerId m := by rw [← hwid, ← hlid, he]
  rw [hsame, hw] at hl
  cases hl
  exact absurd hrank (lt_irrefl _)

/-- C1: poison-ladder window shift.  With distinct ids and dense distinct
ranks `1..N`, when the winner was ranked strictly worse than the loser,
`applyPoisonLadderLogic` moves the winner to the loser's old rank, shifts every
other competitor whose rank was in `[loserOldRank, winnerOldRank)` down by
exactly one (so the loser lands at `loserOldRank + 1`), and leaves every other
competitor's rank unchanged. -/
theorem poisonLadder_window_shift (players : List Player) (m : Match) (w l : Player)
    (hnd : (players.map Player.id).Nodup)
    (hdense : (players.map Player.current_rank).Perm
      ((List.range' 1 players.length).map Int.ofNat))
    (hw : players.find? (fun p => p.id = matchWinnerId m) = some w)
    (hl : players.find? (fun p => p.id = matchLoserId m) = some l)
    (hrank : l.current_rank < w.current_rank) :
    ∃ res after,
      applyPoisonLadderLogic players m = Except.ok (res, after) ∧
      (∀ q ∈ res, q.id = w.id → q.current_rank = l.current_rank) ∧
      (∀ p ∈ players, p.id ≠ w.id → ∀ q ∈ res, q.id = p.id →
        q.current_rank =
          if l.current_rank ≤ p.current_rank ∧ p.current_rank < w.current_rank then
            p.current_rank + 1
          else p.current_rank) ∧
      (∀ q ∈ res, q.id = l.id → q.current_rank = l.current_rank + 1) := by
  have happ := applyPoisonLadderLogic_eq hw hl
  rw [if_pos hrank] at happ
  have key : ∀ p ∈ players,
      ∀ q ∈ sortByRank (bumpWindow players w.id w.current_rank l.current_rank),
      q.id = p.id → q = ladderShift w.id w.current_rank l.current_rank p := by
    intro p hp q hq hqp
    obtain ⟨p', hp', rfl⟩ := mem_sortByRank_bumpWindow hnd hq
    rw [ladderShift_id] at hqp
    rw [List.inj_on_of_nodup_map hnd hp' hp hqp]
  refine ⟨_, _, happ, ?_, ?_, ?_⟩
  · intro q hq hid
    have hqw := key w (List.mem_of_find?_eq_some hw) q hq hid
    rw [hqw]
    simp [ladderShift]
  · intro p hp hpw q hq hqp
    have hqp' := key p hp q hq hqp
    rw [hqp']
    by_cases hc : l.current_rank ≤ p.current_rank ∧ p.current_rank < w.current_rank <;>
      simp [ladderShift, hpw, hc]
  · intro q hq hid
    have hlw := winner_loser_id_ne hw hl hrank
    have hql := key l (List.mem_of_find?_eq_some hl) q hq hid
    rw [hql]
    simp [ladderShift, hlw, hrank]

/-- Six competitors with dense ranks 1..6; the spec's window-shift example. -/
def roster6 : List Player :=
  [{ id := "a", name := "A", initial_rank := 1, current_rank := 1 },
   { id := "b", name := "B", initial_rank := 2, current_rank := 2 },
   { id := "c", name := "C", initial_rank := 3, current_rank := 3 },
   { id := "d", name := "D", initial_rank := 4, current_rank := 4 },
   { id := "e", name := "E", initial_rank := 5, current_rank := 5 },
   { id := "f", name := "F", initial_rank := 6, current_rank := 6 }]

/-- The rank-5 winner of the spec's example. -/
def rosterSixWinner : Player := { id := "e", name := "E", initial_rank := 5, current_rank := 5 }

/-- The rank-2 loser of the spec's example. -/
def rosterSixLoser : Player := { id := "b", name := "B", initial_rank := 2, current_rank := 2 }

/-- Rank 5 beats rank 2. -/
def matchFiveBeatsTwo : Match :=
  { player1_id := "e", player2_id := "b", match_winner := Side.one }

/-- C1 witness: the window-shift theorem at the spec's 6-competitor example
(winner at rank 5 beats loser at rank 2). -/
theorem poisonLadder_window_shift_witness :
    ∃ res after,
      applyPoisonLadderLogic roster6 matchFiveBeatsTwo = Except.ok (res, after) ∧
      (∀ q ∈ res, q.id = rosterSixWinner.id →
        q.current_rank = rosterSixLoser.current_rank) ∧
      (∀ p ∈ roster6, p.id ≠ rosterSixWinner.id → ∀ q ∈ res, q.id = p.id →
        q.current_rank =
          if rosterSixLoser.current_rank ≤ p.current_rank ∧
              p.current_rank < rosterSixWinner.current_rank then
            p.current_rank + 1
          else p.current_rank) ∧
      (∀ q ∈ res, q.id = rosterSixLoser.id →
        q.current_rank = rosterSixLoser.current_rank + 1) :=
  poisonLadder_window_shift roster6 matchFiveBeatsTwo rosterSixWinner rosterSixLoser
    (by decide) (by decide) (by decide) (by decide) (by decide)

/-! ### C9 / C10: effect on the caller's array, and agreement of the copies -/

/-- A three-competitor roster with dense ranks. -/
def roster3 : List Player :=
  [{ id := "a", name := "Alice", initial_rank := 1, current_rank := 1 },
   { id := "b", name := "Bob", initial_rank := 2, current_rank := 2 },
   { id := "c", name := "Charlie", initial_rank := 3, current_rank := 3 }]

/-- Charlie (rank 3) beats Alice (rank 1). -/
def matchCharlieBeatsAlice : Match :=
  { player1_id := "c", player2_id := "a", match_winner := Side.one }

/-- The Charlie record of `roster3`. -/
def roster3Winner : Player := { id := "c", name := "Charlie", initial_rank := 3, current_rank := 3 }

/-- The Alice record of `roster3`. -/
def roster3Loser : Player := { id := "a", name := "Alice", initial_rank := 1, current_rank := 1 }

/-- C9 counterexample: `updateLadderRankings` is not pure.  It copies only the
array (`[...players]`), so its rank writes land in the caller's records: after
Charlie (rank 3) beats Alice (rank 1) on `roster3`, the caller's array no
longer holds the ranks it held before the call.  `applyPoisonLadderLogic`, by
contrast, copies every record and leaves the input unchanged. -/
theorem updateLadderRankings_mutates_input :
    (updateLadderRankings roster3 matchCharlieBeatsAlice).toOption.map Prod.snd ≠
      some roster3 ∧
    (applyPoisonLadderLogic roster3 matchCharlieBeatsAlice).toOption.map Prod.snd =
      some roster3 := by
  decide

/-- C9 amended: `applyPoisonLadderLogic` returns a new roster and leaves the
input roster unchanged; `updateLadderRankings` returns a new array but writes
through to the caller's records — after the call the input array keeps its
order and ids, while the winner's and the shifted window's records carry their
new ranks (the bumped record list). -/
theorem poisonLadder_effect_on_input (players : List Player) (m : Match) (w l : Player)
    (hw : players.find? (fun p => p.id = matchWinnerId m) = some w)
    (hl : players.find? (fun p => p.id = matchLoserId m) = some l)
    (hrank : l.current_rank < w.current_rank) :
    (∃ res, applyPoisonLadderLogic players m = Except.ok (res, players)) ∧
    (∃ res, updateLadderRankings players m =
      Except.ok (res, bumpWindow players w.id w.current_rank l.current_rank)) ∧
    (bumpWindow players w.id w.current_rank l.current_rank).map Player.id =
      players.map Player.id := by
  have happ := applyPoisonLadderLogic_eq hw hl
  have hupd := updateLadderRankings_eq hw hl
  rw [if_pos hrank] at happ hupd
  exact ⟨⟨_, happ⟩, ⟨_, hupd⟩, bumpWindow_map_id players w.id w.current_rank l.current_rank⟩

/-- C9 amended witness: the effect theorem at the concrete `roster3` input. -/
theorem poisonLadder_effect_on_input_witness :
    (∃ res, applyPoisonLadderLogic roster3 matchCharlieBeatsAlice =
      Except.ok (res, roster3)) ∧
    (∃ res, updateLadderRankings roster3 matchCharlieBeatsAlice =
      Except.ok (res,
        bumpWindow roster3 roster3Winner.id roster3Winner.current_rank
          roster3Loser.current_rank)) ∧
    (bumpWindow roster3 roster3Winner.id roster3Winner.current_rank
        roster3Loser.current_rank).map Player.id = roster3.map Player.id :=
  poisonLadder_effect_on_input roster3 matchCharlieBeatsAlice roster3Winner roster3Loser
    (by decide) (by decide) (by decide)

/-- The two poison-ladder copies return the same roster on every input (they
perform the same record updates and the same stable sort; they differ only in
whether the updates also hit the caller's records). -/
theorem apply_fst_eq_update_fst (players : List Player) (m : Match) :
    (applyPoisonLadderLogic players m).map Prod.fst =
      (updateLadderRankings players m).map Prod.fst := by
  cases h1 : players.find? (fun p => p.id = m.player1_id) with
  | none =>
    unfold applyPoisonLadderLogic updateLadderRankings
    rw [h1]
  | some player1 =>
    cases h2 : players.find? (fun p => p.id = m.player2_id) with
    | none =>
      unfold applyPoisonLadderLogic updateLadderRankings
      rw [h1, h2]
    | some player2 =>
      cases hmw : m.match_winner
      · have hw : players.find? (fun p => p.id = matchWinnerId m) = some player1 := by
          simpa [matchWinnerId, hmw] using h1
        have hl : players.find? (fun p => p.id = matchLoserId m) = some player2 := by
          simpa [matchLoserId, hmw] using h2
        rw [applyPoisonLadderLogic_eq hw hl, updateLadderRankings_eq hw hl]
        rfl
      · have hw : players.find? (fun p => p.id = matchWinnerId m) = some player2 := by
          simpa [matchWinnerId, hmw] using h2
        have hl : players.find? (fun p => p.id = matchLoserId m) = some player1 := by
          simpa [matchLoserId, hmw] using h1
        rw [applyPoisonLadderLogic_eq hw hl, updateLadderRankings_eq hw hl]
        rfl

/-- C10: for every roster with distinct ids and dense distinct ranks `1..N`
and every match between two players present in it, `updateLadderRankings` and
`applyPoisonLadderLogic` return the same rank for every player id. -/
theorem poisonLadder_implementations_agree (players : List Player) (m : Match)
    (w l : Player)
    (hnd : (players.map Player.id).Nodup)
    (hdense : (players.map Player.current_rank).Perm
      ((List.range' 1 players.length).map Int.ofNat))
    (hw : players.find? (fun p => p.id = matchWinnerId m) = some w)
    (hl : players.find? (fun p => p.id = matchLoserId m) = some l) :
    ∃ res₁ after₁ res₂ after₂,
      applyPoisonLadderLogic players m = Except.ok (res₁, after₁) ∧
      updateLadderRankings players m = Except.ok (res₂, after₂) ∧
      ∀ pid : String,
        ((res₁.find? (fun p => p.id = pid)).map Player.current_rank =
          (res₂.find? (fun p => p.id = pid)).map Player.current_rank) := by
  have happ := applyPoisonLadderLogic_eq hw hl
  have hupd := updateLadderRankings_eq hw hl
  exact ⟨_, _, _, _, happ, hupd, fun _ => rfl⟩

/-- C10 witness: both implementations at the concrete `roster3` input agree. -/
theorem poisonLadder_implementations_agree_witness :
    ∃ res₁ after₁ res₂ after₂,
      applyPoisonLadderLogic roster3 matchCharlieBeatsAlice = Except.ok (res₁, after₁) ∧
      updateLadderRankings roster3 matchCharlieBeatsAlice = Except.ok (res₂, after₂) ∧
      ∀ pid : String,
        ((res₁.find? (fun p => p.id = pid)).map Player.current_rank =
          (res₂.find? (fun p => p.id = pid)).map Player.current_rank) :=
  poisonLadder_implementations_agree roster3 matchCharlieBeatsAlice
    roster3Winner roster3Loser (by decide) (by decide) (by decide) (by decide)

/-! ## The rebuild engine (`rebuildAllRankings`, `src/lib/utils/events.ts` 263–428)

The engine fetches the players in `created_at` order, sorts a copy by
`initial_rank`, fetches all `ranking_events` in `(event_date, created_at)`
order, folds the events over the ordered list by `splice` index manipulation
(updating each event's audit fields as it goes), and finally writes back
`current_rank = index + 1` for every player.  The persistent state it touches
is modelled by `DB`; the fetches deliver the stored lists in their stored
order, the audit updates (keyed by the event's primary key) update the stored
events in place, and the rank write-back updates every player row whose id
matches. -/

/-- A `ranking_events` row. -/
structure RankingEvent where
  id : String := ""
  event_type : String := ""
  event_date : String := ""
  match_id : Option String := none
  player_id : Option String := none
  old_rank : Option Int := none
  new_rank : Option Int := none
  reason : String := ""
  created_at : String := ""
deriving DecidableEq, Repr

/-- The persistent state: the `players` table in `created_at` order, the
`ranking_events` table in `(event_date, created_at)` order, and the `matches`
table.  The rebuild changes neither ordering key, so the stored orders are
stable across rebuilds. -/
structure DB where
  players : List Player := []
  events : List RankingEvent := []
  matchRows : List Match := []
deriving DecidableEq, Repr

/-- `.from('matches').select('*').eq('id', mid).single()`: primary-key lookup. -/
def lookupMatch (mats : List Match) (mid : String) : Option Match :=
  mats.find? (fun md => md.id = mid)

/-- The baseline sort `.sort((a, b) => a.initial_rank - b.initial_rank)`. -/
def initialLE (a b : Player) : Prop := a.initial_rank ≤ b.initial_rank

instance : DecidableRel initialLE :=
  fun a b => inferInstanceAs (Decidable (a.initial_rank ≤ b.initial_rank))

/-- Stable ascending sort by `initial_rank` (ties keep `created_at` fetch order). -/
def sortByInitialRank (l : List Player) : List Player := List.insertionSort initialLE l

/-- `${event.new_rank}` in a template literal: `null` prints as "null". -/
def optIntStr : Option Int → String
  | some r => toString r
  | none => "null"

/-- Audit reason written when a match event moves the winner. -/
def moveReason (md : Match) (winner loser : Player) (fromRank toRank : Int) : String :=
  "Match: " ++ (if md.player1_id = winner.id then "Winner" else "Loser") ++ " vs " ++
    (if md.player1_id = loser.id then "Winner" else "Loser") ++ ", Winner: " ++
    winner.name ++ " (" ++ toString fromRank ++ " → " ++ toString toRank ++ ")"

/-- Audit reason written when the winner was already ranked higher. -/
def noMoveReason (md : Match) (winner loser : Player) : String :=
  "Match: " ++ (if md.player1_id = winner.id then "Winner" else "Loser") ++ " vs " ++
    (if md.player1_id = loser.id then "Winner" else "Loser") ++ ", Winner: " ++
    winner.name ++ " (no rank change - already ranked higher)"

/-- Audit reason written for a replayed manual adjustment. -/
def adjustReason (player : Player) (fromRank : Int) (toRank : Option Int) : String :=
  "Manual adjustment: " ++ player.name ++ " moved from position " ++ toString fromRank ++
    " to position " ++ optIntStr toRank

/-- The match-event arm of the replay loop (`events.ts` 314–373): find winner
and loser in the ordered roster; when `winnerIndex > loserIndex`, `splice` the
winner out and back in at the loser's index and refresh the event's audit
fields with the observed ranks; otherwise only refresh the audit fields.  The
two `getElem?` arms that cannot fire (the found indices are always in range)
return the roster unchanged. -/
def processMatchEvent (md : Match) (roster : List Player) (e : RankingEvent) :
    List Player × RankingEvent :=
  match findIndex? (fun p => p.id = matchWinnerId md) roster,
        findIndex? (fun p => p.id = matchLoserId md) roster with
  | some winnerIndex, some loserIndex =>
    match roster[winnerIndex]?, roster[loserIndex]? with
    | some winner, some loser =>
      if loserIndex < winnerIndex then
        let winnerOriginalRank : Int := Int.ofNat winnerIndex + 1
        let loserOriginalRank : Int := Int.ofNat loserIndex + 1
        (insertAtClamped (removeAt roster winnerIndex) (Int.ofNat loserIndex) winner,
         { e with
            old_rank := some winnerOriginalRank,
            new_rank := some loserOriginalRank,
            reason := moveReason md winner loser winnerOriginalRank loserOriginalRank })
      else
        (roster,
         { e with
            old_rank := some (Int.ofNat winnerIndex + 1),
            new_rank := some (Int.ofNat winnerIndex + 1),
            reason := noMoveReason md winner loser })
    | _, _ => (roster, e)
  | _, _ => (roster, e)

/-- The manual-adjustment arm of the replay loop (`events.ts` 375–410): find
the player, `splice` them out and back in at `event.new_rank - 1` (JS
arithmetic maps a null `new_rank` to `-1`, and `splice` clamps), and refresh
the audit `old_rank` (the stored `new_rank` is rewritten with its own value). -/
def processManualEvent (roster : List Player) (e : RankingEvent) :
    List Player × RankingEvent :=
  match findIndex? (fun p => e.player_id = some p.id) roster with
  | some playerIndex =>
    match roster[playerIndex]? with
    | some player =>
      let targetPosition : Int := e.new_rank.getD 0 - 1
      let originalRank : Int := Int.ofNat playerIndex + 1
      (insertAtClamped (removeAt roster playerIndex) targetPosition player,
       { e with
          old_rank := some originalRank,
          reason := adjustReason player originalRank e.new_rank })
    | none => (roster, e)
  | none => (roster, e)

/-- One iteration of the replay loop (`events.ts` 298–411).  The state is the
ordered roster plus the already-processed events with their refreshed audit
fields; events whose referents are missing are skipped with their audit fields
untouched. -/
def replayStep (mats : List Match) (st : List Player × List RankingEvent)
    (e : RankingEvent) : List Player × List RankingEvent :=
  if e.event_type = "match" ∧ e.match_id.getD "" ≠ "" then
    match lookupMatch mats (e.match_id.getD "") with
    | none => (st.1, st.2 ++ [e])
    | some md =>
      let r := processMatchEvent md st.1 e
      (r.1, st.2 ++ [r.2])
  else if e.event_type = "manual_adjustment" then
    let r := processManualEvent st.1 e
    (r.1, st.2 ++ [r.2])
  else (st.1, st.2 ++ [e])

/-- The replay loop over the whole event list. -/
def replay (mats : List Match) (roster : List Player) (events : List RankingEvent) :
    List Player × List RankingEvent :=
  events.foldl (replayStep mats) (roster, [])

/-- `map((player, index) => ({ ...player, current_rank: index + 1 }))`. -/
def assignRanks : List Player → Int → List Player
  | [], _ => []
  | p :: l, start => { p with current_rank := start } :: assignRanks l (start + 1)

/-- `updatePlayersInDatabase`: for each computed player, update every stored
row whose id matches with the computed `current_rank`. -/
def writeBack (ps : List Player) (qs : List Player) : List Player :=
  qs.foldl
    (fun acc q =>
      acc.map fun p =>
        if p.id = q.id then { p with current_rank := q.current_rank } else p)
    ps

/-- The final ranked roster a rebuild computes (`currentPlayers` in the source):
baseline by `initial_rank`, replay all events, assign positional ranks. -/
def rebuildOutput (db : DB) : List Player :=
  assignRanks (replay db.matchRows (sortByInitialRank db.players) db.events).1 1

/-- `rebuildAllRankings`: the full engine as a state transformer — the players
carry their new ranks, the events carry their refreshed audit fields, the
matches are untouched. -/
def rebuildAllRankings (db : DB) : DB :=
  { db with
    players := writeBack db.players (rebuildOutput db),
    events := (replay db.matchRows (sortByInitialRank db.players) db.events).2 }

/-- `[1, 2, ..., n]` starting at `start`, as integers. -/
def intRange : Int → Nat → List Int
  | _, 0 => []
  | start, Nat.succ n => start :: intRange (start + 1) n

/-- The `(id, rank)` assignment that positional ranking produces. -/
def zipRanks : List String → Int → List (String × Int)
  | [], _ => []
  | i :: l, start => (i, start) :: zipRanks l (start + 1)

/-! ## The older rebuild (`rebuildRankingsFromTimeline`, `src/lib/utils/ladder.ts` 507–609)

This rebuild mutates the numeric `current_rank` field directly instead of
splicing an ordered list. -/

/-- One entry of the combined, chronologically ordered change list that
`getAllRankingChanges` (`ladder.ts` 373–474) returns: a manual rank
adjustment (of an active player) or a match (between active players).  The
fetch / filter / sort that builds the list is I/O; its ordered output is the
argument here. -/
inductive TimelineChange where
  | rankAdjustment (player_id : String) (new_rank : Int)
  | matchPlayed (md : Match)
deriving DecidableEq, Repr

/-- The rank-adjustment arm of the timeline rebuild loop (`ladder.ts` 539–569):
find the player; if someone else sits at the target rank, bump every other
player whose rank is in `[new_rank, player.current_rank)`; then write the
target rank into the player's record (no splice — direct field assignment) and
re-sort. -/
def applyTimelineAdjustment (players : List Player) (playerId : String) (newRank : Int) :
    List Player :=
  match players.find? (fun p => p.id = playerId) with
  | none => players
  | some player =>
    let playerAtTargetRank := players.find? (fun p => p.current_rank = newRank)
    let shifted :=
      match playerAtTargetRank with
      | some t =>
        if t.id ≠ player.id then
          players.map fun p =>
            if p.id ≠ player.id ∧ newRank ≤ p.current_rank ∧
                p.current_rank < player.current_rank then
              { p with current_rank := p.current_rank + 1 }
            else p
        else players
      | none => players
    sortByRank (setFirstRank shifted player.id newRank)

/-- `rebuildRankingsFromTimeline` (`ladder.ts` 507–609), in-memory part: start
from natural (`created_at`) order with ranks `index + 1`, then fold the
combined change list; match changes go through `updateLadderRankings`, whose
throw propagates as in the source. -/
def rebuildRankingsFromTimeline (players : List Player)
    (allChanges : List TimelineChange) : Except String (List Player) :=
  allChanges.foldlM
    (fun current c =>
      match c with
      | TimelineChange.rankAdjustment pid newRank =>
        Except.ok (applyTimelineAdjustment current pid newRank)
      | TimelineChange.matchPlayed md => (updateLadderRankings current md).map Prod.fst)
    (assignRanks players 1)

/-! ### Structural lemmas for the replay -/

theorem assignRanks_map_rank (l : List Player) :
    ∀ s : Int, (assignRanks l s).map Player.current_rank = intRange s l.length := by
  induction l with
  | nil => intro s; rfl
  | cons p l ih => intro s; simp [assignRanks, intRange, ih]

theorem assignRanks_map_id (l : List Player) :
    ∀ s : Int, (assignRanks l s).map Player.id = l.map Player.id := by
  induction l with
  | nil => intro s; rfl
  | cons p l ih => intro s; simp [assignRanks, ih]

theorem assignRanks_map_assignment (l : List Player) :
    ∀ s : Int, (assignRanks l s).map (fun p => (p.id, p.current_rank)) =
      zipRanks (l.map Player.id) s := by
  induction l with
  | nil => intro s; rfl
  | cons p l ih => intro s; simp [assignRanks, zipRanks, ih]

theorem spliceIdx_le (len : Nat) (pos : Int) : spliceIdx len pos ≤ len := by
  unfold spliceIdx
  split
  · rename_i h
    rw [Int.toNat_le, Int.ofNat_eq_natCast]
    omega
  · exact min_le_right _ _

theorem insertAtClamped_perm {α : Type _} (l : List α) (pos : Int) (x : α) :
    (insertAtClamped l pos x).Perm (x :: l) := by
  unfold insertAtClamped
  have h : x :: (l.take (spliceIdx l.length pos) ++ l.drop (spliceIdx l.length pos)) = x :: l := by
    rw [List.take_append_drop]
  exact h ▸ List.perm_middle

theorem perm_cons_removeAt {α : Type _} {l : List α} {i : Nat} {x : α}
    (h : l[i]? = some x) : l.Perm (x :: removeAt l i) := by
  obtain ⟨hi, hx⟩ := List.getElem?_eq_some_iff.mp h
  unfold removeAt
  have h2 : l = l.take i ++ x :: l.drop (i + 1) := by
    conv_lhs => rw [← List.take_append_drop i l]
    rw [List.drop_eq_getElem_cons hi, hx]
  conv_lhs => rw [h2]
  exact List.perm_middle

theorem spliceOut_spliceIn_perm {α : Type _} {l : List α} {i : Nat} {x : α}
    (h : l[i]? = some x) (pos : Int) :
    (insertAtClamped (removeAt l i) pos x).Perm l :=
  (insertAtClamped_perm (removeAt l i) pos x).trans (perm_cons_removeAt h).symm

theorem processMatchEvent_fst_perm (md : Match) (roster : List Player) (e : RankingEvent) :
    ((processMatchEvent md roster e).1).Perm roster := by
  unfold processMatchEvent
  cases hfw : findIndex? (fun p => p.id = matchWinnerId md) roster with
  | none => exact List.Perm.refl _
  | some winnerIndex =>
    cases hfl : findIndex? (fun p => p.id = matchLoserId md) roster with
    | none => exact List.Perm.refl _
    | some loserIndex =>
      dsimp only
      cases hgw : roster[winnerIndex]? with
      | none => exact List.Perm.refl _
      | some winner =>
        cases hgl : roster[loserIndex]? with
        | none => exact List.Perm.refl _
        | some loser =>
          dsimp only
          by_cases hlt : loserIndex < winnerIndex
          · rw [if_pos hlt]
            exact spliceOut_spliceIn_perm hgw (Int.ofNat loserIndex)
          · rw [if_neg hlt]

theorem processManualEvent_fst_perm (roster : List Player) (e : RankingEvent) :
    ((processManualEvent roster e).1).Perm roster := by
  unfold processManualEvent
  cases hfp : findIndex? (fun p => e.player_id = some p.id) roster with
  | none => exact List.Perm.refl _
  | some playerIndex =>
    dsimp only
    cases hgp : roster[playerIndex]? with
    | none => exact List.Perm.refl _
    | some player =>
      dsimp only
      exact spliceOut_spliceIn_perm hgp (e.new_rank.getD 0 - 1)

theorem replayStep_fst_perm (mats : List Match) (st : List Player × List RankingEvent)
    (e : RankingEvent) : ((replayStep mats st e).1).Perm st.1 := by
  unfold replayStep
  by_cases h1 : e.event_type = "match" ∧ e.match_id.getD "" ≠ ""
  · rw [if_pos h1]
    cases lookupMatch mats (e.match_id.getD "") with
    | none => exact List.Perm.refl _
    | some md => exact processMatchEvent_fst_perm md st.1 e
  · rw [if_neg h1]
    by_cases h2 : e.event_type = "manual_adjustment"
    · rw [if_pos h2]
      exact processManualEvent_fst_perm st.1 e
    · rw [if_neg h2]

theorem replay_foldl_fst_perm (mats : List Match) (events : List RankingEvent) :
    ∀ st : List Player × List RankingEvent,
      ((events.foldl (replayStep mats) st).1).Perm st.1 := by
  induction events with
  | nil => intro st; exact List.Perm.refl _
  | cons e es ih =>
    intro st
    exact (ih (replayStep mats st e)).trans (replayStep_fst_perm mats st e)

theorem replay_fst_perm (mats : List Match) (roster : List Player)
    (events : List RankingEvent) : ((replay mats roster events).1).Perm roster :=
  replay_foldl_fst_perm mats events (roster, [])

/-- Two players in creation order with dense ranks. -/
def twoPlayers : List Player :=
  [{ id := "a", name := "Alice", initial_rank := 1, current_rank := 1 },
   { id := "b", name := "Bob", initial_rank := 2, current_rank := 2 }]

/-- C2 counterexample: the rank-field rebuild `rebuildRankingsFromTimeline`
violates the permutation invariant.  Replaying a single downward manual
adjustment (move Alice, rank 1 of 2, to rank 2) over a two-player roster ends
with both players at rank 2: the bump window `[new_rank, current_rank)` is
empty for a downward move, so the occupant of the target rank is never
displaced.  The assigned ranks `[2, 2]` are not a permutation of `{1, 2}`. -/
theorem timeline_rebuild_breaks_permutation :
    (rebuildRankingsFromTimeline twoPlayers
        [TimelineChange.rankAdjustment "a" 2]).toOption.map
      (fun l => l.map Player.current_rank) = some [2, 2] ∧
    ¬ (([2, 2] : List Int).Perm (intRange 1 twoPlayers.length)) := by
  decide

/-- C2 amended: the splice-based rebuild (`rebuildAllRankings`, the engine the
admin flows invoke) keeps the invariant.  For every set of competitors and
every event history, the ranks it assigns across all competitors (active and
inactive) are exactly `[1, ..., N]` — no gaps, no duplicates — and every
competitor receives exactly one of them.  The older rank-field rebuild
(`rebuildRankingsFromTimeline`) does not (see the counterexample). -/
theorem rebuild_assigns_permutation (db : DB) :
    (rebuildOutput db).map Player.current_rank = intRange 1 db.players.length ∧
    ((rebuildOutput db).map Player.id).Perm (db.players.map Player.id) := by
  constructor
  · unfold rebuildOutput
    rw [assignRanks_map_rank]
    have h1 := (replay_fst_perm db.matchRows (sortByInitialRank db.players) db.events).length_eq
    have h2 : (sortByInitialRank db.players).length = db.players.length :=
      List.length_insertionSort initialLE db.players
    rw [h1, h2]
  · unfold rebuildOutput
    rw [assignRanks_map_id]
    exact ((replay_fst_perm db.matchRows (sortByInitialRank db.players) db.events).map
      Player.id).trans ((List.perm_insertionSort initialLE db.players).map Player.id)

/-! ### Idempotence of the rebuild (C3)

A second rebuild reads back the state the first one wrote.  The write-back
changes only `current_rank` values, which the replay never reads (it works
purely positionally), and the audit refresh changes only `old_rank`,
`new_rank` and `reason`, of which the replay reads only a manual adjustment's
`new_rank` — and for manual adjustments the refresh rewrites `new_rank` with
its own value.  We make this precise by projecting the replay to player ids
and the events to the fields the replay actually reads. -/

/-- `(id, initial_rank)`: everything the baseline construction reads. -/
def pidInit (p : Player) : String × Int := (p.id, p.initial_rank)

/-- Comparison of baseline projections by `initial_rank`. -/
def pairLE (x y : String × Int) : Prop := x.2 ≤ y.2

instance : DecidableRel pairLE :=
  fun x y => inferInstanceAs (Decidable (x.2 ≤ y.2))

/-- The event fields the replay reads: the kind tag, the match reference, the
player reference, and — for manual adjustments only — the target rank. -/
structure EvKey where
  etype : String
  mid : Option String
  pid : Option String
  nrank : Option Int
deriving DecidableEq, Repr

/-- Project an event to its replay-relevant fields. -/
def evKey (e : RankingEvent) : EvKey :=
  { etype := e.event_type, mid := e.match_id, pid := e.player_id,
    nrank := if e.event_type = "manual_adjustment" then e.new_rank else none }

/-- The match arm of the replay, on the id projection of the roster. -/
def idProcessMatch (md : Match) (ids : List String) : List String :=
  match findIndex? (fun s => s = matchWinnerId md) ids,
        findIndex? (fun s => s = matchLoserId md) ids with
  | some winnerIndex, some loserIndex =>
    match ids[winnerIndex]?, ids[loserIndex]? with
    | some winner, some _ =>
      if loserIndex < winnerIndex then
        insertAtClamped (removeAt ids winnerIndex) (Int.ofNat loserIndex) winner
      else ids
    | _, _ => ids
  | _, _ => ids

/-- The manual arm of the replay, on the id projection of the roster. -/
def idProcessManual (pid : Option String) (nrank : Option Int) (ids : List String) :
    List String :=
  match findIndex? (fun s => pid = some s) ids with
  | some playerIndex =>
    match ids[playerIndex]? with
    | some player =>
      insertAtClamped (removeAt ids playerIndex) (nrank.getD 0 - 1) player
    | none => ids
  | none => ids

/-- One replay iteration on the id projection. -/
def idStep (mats : List Match) (ids : List String) (k : EvKey) : List String :=
  if k.etype = "match" ∧ k.mid.getD "" ≠ "" then
    match lookupMatch mats (k.mid.getD "") with
    | none => ids
    | some md => idProcessMatch md ids
  else if k.etype = "manual_adjustment" then
    idProcessManual k.pid k.nrank ids
  else ids

theorem findIndex?_map_id_eq (l : List Player) (x : String) :
    findIndex? (fun s => s = x) (l.map Player.id) = findIndex? (fun p => p.id = x) l := by
  induction l with
  | nil => rfl
  | cons p l ih => simp only [List.map_cons, findIndex?, ih]

theorem findIndex?_map_id_mem (l : List Player) (o : Option String) :
    findIndex? (fun s => o = some s) (l.map Player.id) =
      findIndex? (fun p => o = some p.id) l := by
  induction l with
  | nil => rfl
  | cons p l ih => simp only [List.map_cons, findIndex?, ih]

theorem removeAt_map {α β : Type _} (f : α → β) (l : List α) (i : Nat) :
    (removeAt l i).map f = removeAt (l.map f) i := by
  unfold removeAt
  simp [List.map_take, List.map_drop]

theorem insertAtClamped_map {α β : Type _} (f : α → β) (l : List α) (pos : Int) (x : α) :
    (insertAtClamped l pos x).map f = insertAtClamped (l.map f) pos (f x) := by
  unfold insertAtClamped
  simp [List.map_take, List.map_drop, List.length_map]

theorem processMatchEvent_fst_map_id (md : Match) (roster : List Player) (e : RankingEvent) :
    ((processMatchEvent md roster e).1).map Player.id =
      idProcessMatch md (roster.map Player.id) := by
  unfold processMatchEvent idProcessMatch
  rw [findIndex?_map_id_eq roster (matchWinnerId md),
    findIndex?_map_id_eq roster (matchLoserId md)]
  cases hfw : findIndex? (fun p => p.id = matchWinnerId md) roster with
  | none => rfl
  | some winnerIndex =>
    cases hfl : findIndex? (fun p => p.id = matchLoserId md) roster with
    | none => rfl
    | some loserIndex =>
      dsimp only
      rw [List.getElem?_map, List.getElem?_map]
      cases hgw : roster[winnerIndex]? with
      | none => rfl
      | some winner =>
        cases hgl : roster[loserIndex]? with
        | none => rfl
        | some loser =>
          dsimp only [Option.map]
          by_cases hlt : loserIndex < winnerIndex
          · rw [if_pos hlt, if_pos hlt, insertAtClamped_map, removeAt_map]
          · rw [if_neg hlt, if_neg hlt]

theorem processManualEvent_fst_map_id (roster : List Player) (e : RankingEvent) :
    ((processManualEvent roster e).1).map Player.id =
      idProcessManual e.player_id e.new_rank (roster.map Player.id) := by
  unfold processManualEvent idProcessManual
  rw [findIndex?_map_id_mem roster e.player_id]
  cases hfp : findIndex? (fun p => e.player_id = some p.id) roster with
  | none => rfl
  | some playerIndex =>
    dsimp only
    rw [List.getElem?_map]
    cases hgp : roster[playerIndex]? with
    | none => rfl
    | some player =>
      dsimp only [Option.map]
      rw [insertAtClamped_map, removeAt_map]

theorem replayStep_fst_map_id (mats : List Match) (st : List Player × List RankingEvent)
    (e : RankingEvent) :
    ((replayStep mats st e).1).map Player.id =
      idStep mats (st.1.map Player.id) (evKey e) := by
  unfold replayStep idStep
  simp only [evKey]
  by_cases h1 : e.event_type = "match" ∧ e.match_id.getD "" ≠ ""
  · rw [if_pos h1, if_pos h1]
    cases lookupMatch mats (e.match_id.getD "") with
    | none => rfl
    | some md => exact processMatchEvent_fst_map_id md st.1 e
  · rw [if_neg h1, if_neg h1]
    by_cases h2 : e.event_type = "manual_adjustment"
    · rw [if_pos h2, if_pos h2, if_pos h2]
      exact processManualEvent_fst_map_id st.1 e
    · rw [if_neg h2, if_neg h2]

theorem processMatchEvent_snd_evKey (md : Match) (roster : List Player) (e : RankingEvent)
    (h : e.event_type = "match") :
    evKey (processMatchEvent md roster e).2 = evKey e := by
  unfold processMatchEvent
  cases findIndex? (fun p => p.id = matchWinnerId md) roster with
  | none => rfl
  | some winnerIndex =>
    cases findIndex? (fun p => p.id = matchLoserId md) roster with
    | none => rfl
    | some loserIndex =>
      dsimp only
      cases roster[winnerIndex]? with
      | none => rfl
      | some winner =>
        cases roster[loserIndex]? with
        | none => rfl
        | some loser =>
          dsimp only
          by_cases hlt : loserIndex < winnerIndex <;>
            simp [hlt, evKey, h]

theorem processManualEvent_snd_evKey (roster : List Player) (e : RankingEvent) :
    evKey (processManualEvent roster e).2 = evKey e := by
  unfold processManualEvent
  cases findIndex? (fun p => e.player_id = some p.id) roster with
  | none => rfl
  | some playerIndex =>
    dsimp only
    cases roster[playerIndex]? with
    | none => rfl
    | some player => simp [evKey]

theorem replayStep_snd_eq (mats : List Match) (st : List Player × List RankingEvent)
    (e : RankingEvent) :
    ∃ e', (replayStep mats st e).2 = st.2 ++ [e'] ∧ evKey e' = evKey e := by
  unfold replayStep
  by_cases h1 : e.event_type = "match" ∧ e.match_id.getD "" ≠ ""
  · rw [if_pos h1]
    cases lookupMatch mats (e.match_id.getD "") with
    | none => exact ⟨e, rfl, rfl⟩
    | some md =>
      exact ⟨(processMatchEvent md st.1 e).2, rfl,
        processMatchEvent_snd_evKey md st.1 e h1.1⟩
  · rw [if_neg h1]
    by_cases h2 : e.event_type = "manual_adjustment"
    · rw [if_pos h2]
      exact ⟨(processManualEvent st.1 e).2, rfl, processManualEvent_snd_evKey st.1 e⟩
    · rw [if_neg h2]
      exact ⟨e, rfl, rfl⟩

theorem replay_foldl_fst_id (mats : List Match) (events : List RankingEvent) :
    ∀ st : List Player × List RankingEvent,
      ((events.foldl (replayStep mats) st).1).map Player.id =
        (events.map evKey).foldl (idStep mats) (st.1.map Player.id) := by
  induction events with
  | nil => intro st; rfl
  | cons e es ih =>
    intro st
    simp only [List.foldl_cons, List.map_cons]
    rw [ih (replayStep mats st e), replayStep_fst_map_id]

theorem replay_foldl_snd_evKey (mats : List Match) (events : List RankingEvent) :
    ∀ st : List Player × List RankingEvent,
      ((events.foldl (replayStep mats) st).2).map evKey =
        st.2.map evKey ++ events.map evKey := by
  induction events with
  | nil => intro st; simp
  | cons e es ih =>
    intro st
    simp only [List.foldl_cons, List.map_cons]
    rw [ih (replayStep mats st e)]
    obtain ⟨e', he', hkey⟩ := replayStep_snd_eq mats st e
    rw [he', List.map_append]
    simp [hkey]

theorem writeBack_map_pidInit (qs : List Player) : ∀ ps : List Player,
    (writeBack ps qs).map pidInit = ps.map pidInit := by
  induction qs with
  | nil => intro ps; rfl
  | cons q qs ih =>
    intro ps
    show (writeBack
      (ps.map fun p => if p.id = q.id then { p with current_rank := q.current_rank } else p)
      qs).map pidInit = ps.map pidInit
    rw [ih, List.map_map]
    refine List.map_congr_left fun p _ => ?_
    by_cases hp : p.id = q.id <;> simp [pidInit, hp, Function.comp]

theorem sortByInitialRank_map_id_congr {ps₁ ps₂ : List Player}
    (h : ps₁.map pidInit = ps₂.map pidInit) :
    (sortByInitialRank ps₁).map Player.id = (sortByInitialRank ps₂).map Player.id := by
  have key : ∀ ps : List Player, (sortByInitialRank ps).map Player.id =
      ((ps.map pidInit).insertionSort pairLE).map Prod.fst := by
    intro ps
    have e1 : (List.insertionSort initialLE ps).map pidInit =
        (ps.map pidInit).insertionSort pairLE :=
      List.map_insertionSort initialLE pairLE pidInit ps (fun a _ b _ => Iff.rfl)
    calc (sortByInitialRank ps).map Player.id
        = ((List.insertionSort initialLE ps).map pidInit).map Prod.fst := by
          rw [List.map_map]; rfl
      _ = ((ps.map pidInit).insertionSort pairLE).map Prod.fst := by rw [e1]
  rw [key ps₁, key ps₂, h]

/-- C3: idempotent rebuild.  With the competitors and the event history fixed
(no new events between the runs), running `rebuildAllRankings` twice yields
the same `(id, current_rank)` assignment both times: the second run reads the
state the first one wrote, and nothing the replay reads was changed by the
write-back or the audit refresh. -/
theorem rebuild_idempotent (db : DB) :
    (rebuildOutput (rebuildAllRankings db)).map (fun p => (p.id, p.current_rank)) =
      (rebuildOutput db).map (fun p => (p.id, p.current_rank)) := by
  have hA : ∀ d : DB, (rebuildOutput d).map (fun p => (p.id, p.current_rank)) =
      zipRanks ((d.events.map evKey).foldl (idStep d.matchRows)
        ((sortByInitialRank d.players).map Player.id)) 1 := by
    intro d
    unfold rebuildOutput
    rw [assignRanks_map_assignment]
    rw [show (replay d.matchRows (sortByInitialRank d.players) d.events).1.map Player.id =
        (d.events.map evKey).foldl (idStep d.matchRows)
          ((sortByInitialRank d.players).map Player.id) from
      replay_foldl_fst_id d.matchRows d.events (sortByInitialRank d.players, [])]
  rw [hA (rebuildAllRankings db), hA db]
  have hkeys : (rebuildAllRankings db).events.map evKey = db.events.map evKey := by
    show ((replay db.matchRows (sortByInitialRank db.players) db.events).2).map evKey = _
    rw [show ((replay db.matchRows (sortByInitialRank db.players) db.events).2).map evKey =
        ([] : List RankingEvent).map evKey ++ db.events.map evKey from
      replay_foldl_snd_evKey db.matchRows db.events (sortByInitialRank db.players, [])]
    simp
  have hids : (sortByInitialRank (rebuildAllRankings db).players).map Player.id =
      (sortByInitialRank db.players).map Player.id := by
    apply sortByInitialRank_map_id_congr
    exact writeBack_map_pidInit (rebuildOutput db) db.players
  have hmats : (rebuildAllRankings db).matchRows = db.matchRows := rfl
  rw [hkeys, hids, hmats]

/-! ## The Active View (`getActiveLeaderboard`, `src/lib/utils/ladder.ts` 4–16) -/

/-- `map((player, index) => ({ ...player, display_rank: index + 1 }))`. -/
def assignDisplayRanks : List Player → Int → List Player
  | [], _ => []
  | p :: l, start => { p with display_rank := some start } :: assignDisplayRanks l (start + 1)

/-- `getActiveLeaderboard`: filter to active players, sort by `current_rank`,
attach a dense `display_rank` without touching `current_rank`. -/
def getActiveLeaderboard (players : List Player) : List Player :=
  let activePlayers := players.filter (fun p => p.is_active = true)
  let sortedActivePlayers := sortByRank activePlayers
  assignDisplayRanks sortedActivePlayers 1

theorem assignDisplayRanks_display (l : List Player) :
    ∀ s : Int, (assignDisplayRanks l s).map Player.display_rank =
      (intRange s l.length).map some := by
  induction l with
  | nil => intro s; rfl
  | cons p l ih => intro s; simp [assignDisplayRanks, intRange, ih]

theorem assignDisplayRanks_assignment (l : List Player) :
    ∀ s : Int, (assignDisplayRanks l s).map (fun p => (p.id, p.current_rank)) =
      l.map (fun p => (p.id, p.current_rank)) := by
  induction l with
  | nil => intro s; rfl
  | cons p l ih => intro s; simp [assignDisplayRanks, ih]

theorem assignDisplayRanks_rank (l : List Player) :
    ∀ s : Int, (assignDisplayRanks l s).map Player.current_rank =
      l.map Player.current_rank := by
  induction l with
  | nil => intro s; rfl
  | cons p l ih => intro s; simp [assignDisplayRanks, ih]

/-- C8: Active View density and non-interference.  For every roster, the view
contains exactly the active competitors (each with its `current_rank`
preserved unchanged), ordered by `current_rank`, and its `display_rank` values
are exactly `1..k` for `k` the number of active competitors — regardless of
gaps left in `current_rank` by interleaved inactive competitors. -/
theorem activeView_density (players : List Player) :
    ((getActiveLeaderboard players).map Player.display_rank =
      (intRange 1 (players.filter (fun p => p.is_active = true)).length).map some) ∧
    (((getActiveLeaderboard players).map (fun p => (p.id, p.current_rank))).Perm
      ((players.filter (fun p => p.is_active = true)).map
        (fun p => (p.id, p.current_rank)))) ∧
    List.Sorted (· ≤ ·) ((getActiveLeaderboard players).map Player.current_rank) := by
  refine ⟨?_, ?_, ?_⟩
  · unfold getActiveLeaderboard
    rw [assignDisplayRanks_display]
    rw [show (sortByRank (players.filter (fun p => p.is_active = true))).length =
        (players.filter (fun p => p.is_active = true)).length from
      List.length_insertionSort rankLE _]
  · unfold getActiveLeaderboard
    rw [assignDisplayRanks_assignment]
    exact (List.perm_insertionSort rankLE _).map _
  · unfold getActiveLeaderboard
    rw [assignDisplayRanks_rank]
    have hs := List.sorted_insertionSort rankLE (players.filter (fun p => p.is_active = true))
    exact List.Pairwise.map Player.current_rank (fun a b h => h) hs

/-! ## Manual adjustment entry point (`RankingManager`, `src/unnamed/part_004` 22–63) -/

/-- `recordManualAdjustment` (`src/lib/utils/events.ts` 143–166): append the
manual-adjustment event to the timeline.  `now` models
`new Date().toISOString()`; the row's database-generated `id` / `created_at`
are left at their defaults. -/
def recordManualAdjustment (events : List RankingEvent) (playerId : String)
    (oldRank newRank : Int) (reason : String) (now : String) : List RankingEvent :=
  events ++ [{ event_type := "manual_adjustment", event_date := now,
               player_id := some playerId, old_rank := some oldRank,
               new_rank := some newRank, reason := reason }]

/-- `handleManualAdjustment`: validate the form inputs (`selectedPlayer` empty
is the falsy check; `targetRank` is the parsed integer), reject a target rank
outside `[1, N]` with the bounds error, and only then append the event and run
the full rebuild.  Returns the outcome together with the resulting state. -/
def handleManualAdjustment (db : DB) (selectedPlayer : String) (targetRank : Int)
    (reason : String) (now : String) : Except String Unit × DB :=
  if selectedPlayer = "" then
    (Except.error "Please select a player and enter a new rank", db)
  else
    match db.players.find? (fun p => p.id = selectedPlayer) with
    | none => (Except.error "Player not found", db)
    | some player =>
      if targetRank < 1 ∨ (db.players.length : Int) < targetRank then
        (Except.error ("Rank must be between 1 and " ++ toString db.players.length), db)
      else
        let newEvents :=
          recordManualAdjustment db.events selectedPlayer player.current_rank targetRank
            (if reason = "" then "Manual adjustment" else reason) now
        let db' := { db with events := newEvents }
        (Except.ok (), rebuildAllRankings db')

/-- C7: an out-of-range target rank is rejected before any event is appended:
the call fails with the rank-bounds error and returns the state unchanged —
timeline and ranks untouched, no rebuild run. -/
theorem invalid_rank_rejected (db : DB) (selectedPlayer : String) (targetRank : Int)
    (reason now : String) (player : Player)
    (hsel : selectedPlayer ≠ "")
    (hfound : db.players.find? (fun p => p.id = selectedPlayer) = some player)
    (hr : targetRank < 1 ∨ (db.players.length : Int) < targetRank) :
    handleManualAdjustment db selectedPlayer targetRank reason now =
      (Except.error ("Rank must be between 1 and " ++ toString db.players.length), db) := by
  unfold handleManualAdjustment
  rw [if_neg hsel, hfound]
  dsimp only
  rw [if_pos hr]

/-- Three-player state for the manual-adjustment witness. -/
def smallDB : DB := { players := roster3, events := [], matchRows := [] }

/-- C7 witness: moving Alice to rank 5 in a three-player ladder fails with the
bounds error and leaves the state untouched. -/
theorem invalid_rank_rejected_witness :
    handleManualAdjustment smallDB "a" 5 "" "2024-01-05T00:00:00Z" =
      (Except.error ("Rank must be between 1 and " ++ toString smallDB.players.length),
        smallDB) :=
  invalid_rank_rejected smallDB "a" 5 "" "2024-01-05T00:00:00Z"
    { id := "a", name := "Alice", initial_rank := 1, current_rank := 1 }
    (by decide) (by decide) (by decide)
